import Mathlib

/-!
Verification of the content-extraction cascade of the drive-airtable
integration (src/app.py).

Shallow embedding conventions:

* Python strings are sequences of Unicode code points, modelled as
  `List Char` (abbreviated `Text`).
* `str.strip()` is modelled with the ASCII whitespace characters Python
  strips (space, tab, newline, carriage return, vertical tab, form feed).
* `str.lower()` is modelled as ASCII lowercasing (`Char.toLower`); only the
  ASCII suffix `.pdf` is ever tested against the lowered name.
* The PDF parser (PyPDF2) is external; its outcome is modelled as
  `Option (List Text)`: `none` when `PyPDF2.PdfReader`/`extract_text`
  raises, `some pages` for the list of per-page texts.
* The Vision client is external; a `VisionProvider` records the outcome of
  each of the four calls as `Except Text _` (`Except.error e` models the
  call raising an exception with message `e`).  In
  `process_with_vision_api` the whole body sits inside one `try/except`,
  so a raised exception at any vision call aborts the function with the
  `"Vision API error: ..."` message; the sequencing of the embedding
  reflects this.
* The Python function returns a pair `(text, error)`.  The embedding
  additionally records which branch produced the returned text as a
  `Strategy` tag (`none` for the error return and for the exhausted
  sentinel), mirroring the spec's `strategy_used` field; the tag is pure
  instrumentation of the return sites and does not alter control flow.
-/

namespace DriveAirtable

/-- Python strings as sequences of Unicode code points. -/
abbrev Text := List Char

/-- The whitespace characters stripped by Python's `str.strip()`
(ASCII subset). -/
def isPySpace (c : Char) : Bool :=
  c = ' ' || c = '\t' || c = '\n' || c = '\r' ||
  c = Char.ofNat 0x0B || c = Char.ofNat 0x0C

/-- A string is blank when every character is whitespace
(Python: `s.strip()` is falsy). -/
def isBlank (s : Text) : Bool := s.all isPySpace

/-- Python's `s.strip()`: drop leading and trailing whitespace. -/
def stripText (s : Text) : Text :=
  ((s.dropWhile isPySpace).reverse.dropWhile isPySpace).reverse

/-- Membership in the Hebrew Unicode block, the regex `[֐-׿]`
of `fix_hebrew_text_direction`. -/
def isHebrewChar (c : Char) : Bool :=
  0x590 ≤ c.toNat && c.toNat ≤ 0x5FF

/-- Models `hebrew_pattern.search(text)`: the text contains a Hebrew-block
code point. -/
def containsHebrew (s : Text) : Bool := s.any isHebrewChar

/-- Python's substring test `pat in s`. -/
def containsSub (pat : Text) : Text → Bool
  | [] => pat.isEmpty
  | c :: rest => pat.isPrefixOf (c :: rest) || containsSub pat rest

/-- The four hard-coded reference substrings of
`fix_hebrew_text_direction`, by code point:
`'ךמס'`, `'ךאראת'`, `'רובסל'`, `'יק יק'`. -/
def hebrewPatterns : List Text :=
  [ [Char.ofNat 0x5DA, Char.ofNat 0x5DE, Char.ofNat 0x5E1],
    [Char.ofNat 0x5DA, Char.ofNat 0x5D0, Char.ofNat 0x5E8,
     Char.ofNat 0x5D0, Char.ofNat 0x5EA],
    [Char.ofNat 0x5E8, Char.ofNat 0x5D5, Char.ofNat 0x5D1,
     Char.ofNat 0x5E1, Char.ofNat 0x5DC],
    [Char.ofNat 0x5D9, Char.ofNat 0x5E7, ' ',
     Char.ofNat 0x5D9, Char.ofNat 0x5E7] ]

/-- Models `any(pattern in line for pattern in [...])`. -/
def lineMatched (line : Text) : Bool :=
  hebrewPatterns.any (fun pat => containsSub pat line)

/-- The per-line body of the loop in `fix_hebrew_text_direction`:
reverse a line that has Hebrew characters and matches a reference
substring, otherwise keep it. -/
def fixLine (line : Text) : Text :=
  if containsHebrew line && lineMatched line then line.reverse else line

/-- Python's `text.split('\n')`. -/
def splitOnNl : Text → List Text
  | [] => [[]]
  | c :: rest =>
    if c = '\n' then [] :: splitOnNl rest
    else
      match splitOnNl rest with
      | [] => [[c]]
      | l :: ls => (c :: l) :: ls

/-- Python's `'\n'.join(lines)`. -/
def intercalateNl : List Text → Text
  | [] => []
  | [l] => l
  | l :: ls => l ++ '\n' :: intercalateNl ls

/-- Embeds `fix_hebrew_text_direction` (src/app.py:277-307): no-op when the text
has no Hebrew characters, otherwise split on `'\n'`, reverse the matched
lines, and rejoin with `'\n'`. -/
def fix_hebrew_text_direction (text : Text) : Text :=
  if containsHebrew text then
    intercalateNl ((splitOnNl text).map fixLine)
  else text

/-- The page loop of `extract_text_from_pdf`: every page whose text is
non-blank contributes `page_text + "\n"` to the accumulator. -/
def pdfPagesText (pages : List Text) : Text :=
  pages.foldl (fun acc page => if isBlank page then acc else acc ++ page ++ ['\n']) []

/-- Embeds `extract_text_from_pdf` (src/app.py:309-330).  The argument is the
outcome of the external PyPDF2 parse: `none` when parsing or per-page
extraction raises (the Python `except` returns `None`), `some pages` for
the per-page texts.  Returns the stripped concatenation passed through
`fix_hebrew_text_direction`, or `none` when the stripped text is empty. -/
def extract_text_from_pdf : Option (List Text) → Option Text
  | none => none
  | some pages =>
    let t := stripText (pdfPagesText pages)
    if t = [] then none else some (fix_hebrew_text_direction t)

/-- The extraction strategies of the cascade. -/
inductive Strategy where
  | nativeText
  | documentOCR
  | genericOCR
  | objectDetection
  | labelDetection
deriving DecidableEq, Repr

/-- The outcome of `process_with_vision_api`: the `(text, error)` pair
returned by the Python function, plus the branch (strategy) that produced
the text, and `strategy = none` for the error return and the exhausted
sentinel. -/
structure ExtractionResult where
  text : Option Text
  error : Option Text
  strategy : Option Strategy
deriving DecidableEq, Repr

/-- The outcome of each of the four Vision API calls for a given input:
`Except.error e` models the call raising an exception whose string is `e`.
`documentTextDetection` carries the optional `full_text_annotation` text,
`textDetection` the list of `text_annotations` descriptions,
`objectLocalization` the localized object names, and `labelDetection` the
label descriptions. -/
structure VisionProvider where
  documentTextDetection : Except Text (Option Text)
  textDetection : Except Text (List Text)
  objectLocalization : Except Text (List Text)
  labelDetection : Except Text (List Text)

/-- Models `response.full_text_annotation and response.full_text_annotation.text.strip()`:
the stripped annotation text when the annotation is present and non-blank. -/
def annText : Option Text → Option Text
  | none => none
  | some t => let s := stripText t; if s = [] then none else some s

/-- Models `texts and texts[0].description.strip()`: the stripped first
description when present and non-blank. -/
def firstDesc : List Text → Option Text
  | [] => none
  | t :: _ => let s := stripText t; if s = [] then none else some s

/-- Python's `", ".join(parts)`. -/
def joinCommaSpace : List Text → Text
  | [] => []
  | [x] => x
  | x :: xs => x ++ ',' :: ' ' :: joinCommaSpace xs

/-- Models `f"Objects detected: {', '.join(object_names)}"` over the top 5
object names. -/
def objectsSummary (objs : List Text) : Text :=
  "Objects detected: ".data ++ joinCommaSpace (objs.take 5)

/-- Models `f"Image contains: {', '.join(label_names)}"` over the top 5 label
descriptions. -/
def labelsSummary (labels : List Text) : Text :=
  "Image contains: ".data ++ joinCommaSpace (labels.take 5)

/-- Models `f"No text or recognizable content found in {file_name}"`. -/
def exhaustedSentinel (file_name : Text) : Text :=
  "No text or recognizable content found in ".data ++ file_name

/-- The `except` branch of `process_with_vision_api`:
`return None, f"Vision API error: {str(e)}"`. -/
def errResult (e : Text) : ExtractionResult :=
  ⟨none, some ("Vision API error: ".data ++ e), none⟩

/-- The vision part of `process_with_vision_api` (src/app.py:350-393):
document text detection, then generic OCR, then object localization, then
label detection, then the exhausted sentinel; a raised exception at any
call reaches the function-level `except` and yields `errResult`. -/
def visionCascade (p : VisionProvider) (file_name : Text) : ExtractionResult :=
  match p.documentTextDetection with
  | .error e => errResult e
  | .ok ann =>
    match annText ann with
    | some t => ⟨some t, none, some .documentOCR⟩
    | none =>
      match p.textDetection with
      | .error e => errResult e
      | .ok texts =>
        match firstDesc texts with
        | some t => ⟨some t, none, some .genericOCR⟩
        | none =>
          match p.objectLocalization with
          | .error e => errResult e
          | .ok objs =>
            match objs with
            | _ :: _ => ⟨some (objectsSummary objs), none, some .objectDetection⟩
            | [] =>
              match p.labelDetection with
              | .error e => errResult e
              | .ok labels =>
                match labels with
                | _ :: _ => ⟨some (labelsSummary labels), none, some .labelDetection⟩
                | [] => ⟨some (exhaustedSentinel file_name), none, none⟩

/-- Models `file_name.lower().endswith('.pdf')`. -/
def endsWithPdf (file_name : Text) : Bool :=
  List.isSuffixOf ['.', 'p', 'd', 'f'] (file_name.map Char.toLower)

/-- Embeds `process_with_vision_api` (src/app.py:332-397).  `parse` is the
external PyPDF2 outcome for the file bytes (consulted only on the PDF
branch), `p` the Vision API outcomes, `file_name` the declared name. -/
def process_with_vision_api (parse : Option (List Text)) (p : VisionProvider)
    (file_name : Text) : ExtractionResult :=
  if endsWithPdf file_name then
    match extract_text_from_pdf parse with
    | some t => ⟨some t, none, some .nativeText⟩
    | none => visionCascade p file_name
  else visionCascade p file_name

/-! ### Basic lemmas about the string operations -/

theorem splitOnNl_ne_nil (s : Text) : splitOnNl s ≠ [] := by
  cases s with
  | nil => simp [splitOnNl]
  | cons c rest =>
    simp only [splitOnNl]
    split
    · simp
    · split <;> simp

theorem intercalateNl_splitOnNl (s : Text) : intercalateNl (splitOnNl s) = s := by
  induction s with
  | nil => rfl
  | cons c rest ih =>
    simp only [splitOnNl]
    split
    · subst c
      cases h : splitOnNl rest with
      | nil => exact absurd h (splitOnNl_ne_nil rest)
      | cons l ls =>
        rw [h] at ih
        simp only [intercalateNl, List.nil_append]
        rw [ih]
    · cases h : splitOnNl rest with
      | nil => exact absurd h (splitOnNl_ne_nil rest)
      | cons l ls =>
        rw [h] at ih
        cases ls with
        | nil => simp only [intercalateNl] at ih ⊢; rw [ih]
        | cons l2 ls2 =>
          simp only [intercalateNl, List.cons_append] at ih ⊢
          rw [ih]

theorem isBlank_append (s t : Text) : isBlank (s ++ t) = (isBlank s && isBlank t) := by
  simp [isBlank, List.all_append]

theorem isBlank_reverse (s : Text) : isBlank s.reverse = isBlank s := by
  simp [isBlank, List.all_reverse]

theorem isBlank_intercalateNl (ls : List Text) :
    isBlank (intercalateNl ls) = ls.all isBlank := by
  induction ls with
  | nil => rfl
  | cons l ls ih =>
    cases ls with
    | nil => simp [intercalateNl]
    | cons l2 ls2 =>
      have hsp : isPySpace '\n' = true := by decide
      simp only [intercalateNl] at ih ⊢
      simp only [isBlank, List.all_append, List.all_cons, hsp, Bool.true_and] at ih ⊢
      rw [ih]

theorem any_intercalateNl (P : Char → Bool) (hP : P '\n' = false) (ls : List Text) :
    (intercalateNl ls).any P = ls.any (fun l => l.any P) := by
  induction ls with
  | nil => rfl
  | cons l ls ih =>
    cases ls with
    | nil => simp [intercalateNl]
    | cons l2 ls2 =>
      simp only [intercalateNl] at ih ⊢
      simp only [List.any_append, List.any_cons] at ih ⊢
      rw [hP, ← ih]
      simp

theorem containsHebrew_splitOnNl (s : Text) :
    (splitOnNl s).any containsHebrew = containsHebrew s := by
  have h := any_intercalateNl isHebrewChar (by decide) (splitOnNl s)
  rw [intercalateNl_splitOnNl] at h
  simpa [containsHebrew] using h.symm

theorem isBlank_fixLine (l : Text) : isBlank (fixLine l) = isBlank l := by
  unfold fixLine
  split
  · exact isBlank_reverse l
  · rfl

theorem isBlank_dropWhile (s : Text) :
    isBlank (List.dropWhile isPySpace s) = isBlank s := by
  induction s with
  | nil => rfl
  | cons c rest ih =>
    by_cases h : isPySpace c = true
    · rw [List.dropWhile_cons_of_pos h, ih]
      simp [isBlank, h]
    · rw [List.dropWhile_cons_of_neg h]

theorem isBlank_stripText (s : Text) : isBlank (stripText s) = isBlank s := by
  unfold stripText
  rw [isBlank_reverse, isBlank_dropWhile, isBlank_reverse, isBlank_dropWhile]

theorem stripText_eq_nil_iff (s : Text) : stripText s = [] ↔ isBlank s = true := by
  constructor
  · intro h
    have h2 : isBlank (stripText s) = true := by rw [h]; rfl
    rwa [isBlank_stripText] at h2
  · intro h
    have h1 : List.dropWhile isPySpace s = [] :=
      List.dropWhile_eq_nil_iff.mpr (fun x hx => List.all_eq_true.mp h x hx)
    unfold stripText
    rw [h1]
    rfl

theorem all_isBlank_map_fixLine (ls : List Text) :
    (ls.map fixLine).all isBlank = ls.all isBlank := by
  induction ls with
  | nil => rfl
  | cons l ls ih => simp only [List.map_cons, List.all_cons, isBlank_fixLine, ih]

theorem isBlank_fix_hebrew (s : Text) :
    isBlank (fix_hebrew_text_direction s) = isBlank s := by
  unfold fix_hebrew_text_direction
  split
  · rw [isBlank_intercalateNl, all_isBlank_map_fixLine, ← isBlank_intercalateNl,
      intercalateNl_splitOnNl]
  · rfl

/-! ### Lemmas about the PDF page concatenation -/

theorem pdfPagesText_go (pages : List Text) (acc : Text) :
    pages.foldl (fun acc page => if isBlank page then acc else acc ++ page ++ ['\n']) acc =
      acc ++ pages.foldl (fun acc page => if isBlank page then acc else acc ++ page ++ ['\n']) [] := by
  induction pages generalizing acc with
  | nil => simp
  | cons p ps ih =>
    simp only [List.foldl_cons]
    by_cases h : isBlank p = true
    · rw [if_pos h, if_pos h, ih]
    · rw [if_neg h, if_neg h, ih (acc ++ p ++ ['\n']), ih ([] ++ p ++ ['\n'])]
      simp [List.append_assoc]

theorem pdfPagesText_cons (p : Text) (ps : List Text) :
    pdfPagesText (p :: ps) =
      (if isBlank p then [] else p ++ ['\n']) ++ pdfPagesText ps := by
  unfold pdfPagesText
  simp only [List.foldl_cons]
  by_cases h : isBlank p = true
  · rw [if_pos h, if_pos h, List.nil_append]
  · rw [if_neg h, if_neg h, pdfPagesText_go]
    simp

theorem isBlank_pdfPagesText (pages : List Text) :
    isBlank (pdfPagesText pages) = pages.all isBlank := by
  induction pages with
  | nil => rfl
  | cons p ps ih =>
    rw [pdfPagesText_cons, isBlank_append, List.all_cons, ih]
    by_cases h : isBlank p = true
    · rw [if_pos h, h]
      rfl
    · rw [if_neg h, isBlank_append]
      have hb : isBlank p = false := by
        cases hx : isBlank p
        · rfl
        · exact absurd hx h
      rw [hb]
      rfl

theorem pdfPagesText_eq_foldr (pages : List Text) :
    pdfPagesText pages =
      (pages.filter (fun p => !isBlank p)).foldr (fun p acc => p ++ '\n' :: acc) [] := by
  induction pages with
  | nil => rfl
  | cons p ps ih =>
    rw [pdfPagesText_cons]
    by_cases h : isBlank p = true
    · rw [if_pos h]
      simp only [List.filter_cons, h, Bool.not_true, List.nil_append]
      exact ih
    · have hb : isBlank p = false := by
        cases hx : isBlank p
        · rfl
        · exact absurd hx h
      rw [if_neg h]
      simp only [List.filter_cons, hb, Bool.not_false, if_pos, List.foldr_cons]
      rw [← ih]
      simp [List.append_assoc]

theorem stripText_append_space (c : Char) (hc : isPySpace c = true) (s : Text) :
    stripText (s ++ [c]) = stripText s := by
  unfold stripText
  rw [List.dropWhile_append]
  by_cases h : (List.dropWhile isPySpace s).isEmpty = true
  · rw [if_pos h]
    have h3 : List.dropWhile isPySpace s = [] := by
      cases hx : List.dropWhile isPySpace s
      · rfl
      · rw [hx] at h
        simp [List.isEmpty] at h
    have h2 : List.dropWhile isPySpace [c] = [] := by
      simp [List.dropWhile, hc]
    rw [h2, h3]
  · rw [if_neg h, List.reverse_append]
    simp only [List.reverse_cons, List.reverse_nil, List.nil_append, List.singleton_append]
    rw [List.dropWhile_cons_of_pos hc]

theorem foldr_nl_eq_intercalateNl (l : Text) (ls : List Text) :
    (l :: ls).foldr (fun p acc => p ++ '\n' :: acc) [] = intercalateNl (l :: ls) ++ ['\n'] := by
  induction ls generalizing l with
  | nil => simp [intercalateNl]
  | cons l2 ls2 ih =>
    simp only [List.foldr_cons] at ih ⊢
    have h2 := ih l2
    simp only [List.foldr_cons] at h2
    rw [h2]
    simp [intercalateNl, List.append_assoc]

theorem stripText_pdfPagesText (pages : List Text) :
    stripText (pdfPagesText pages) =
      stripText (intercalateNl (pages.filter (fun p => !isBlank p))) := by
  rw [pdfPagesText_eq_foldr]
  cases h : pages.filter (fun p => !isBlank p) with
  | nil => rfl
  | cons l ls =>
    rw [foldr_nl_eq_intercalateNl]
    exact stripText_append_space '\n' (by decide) (intercalateNl (l :: ls))

/-! ### Helper lemmas about the extraction functions -/

theorem map_eq_self_of_mem {f : Text → Text} (ls : List Text)
    (h : ∀ l ∈ ls, f l = l) : ls.map f = ls := by
  induction ls with
  | nil => rfl
  | cons l ls ih =>
    rw [List.map_cons, h l (List.mem_cons_self l ls),
      ih (fun x hx => h x (List.mem_cons_of_mem l hx))]

theorem extract_text_from_pdf_of_not_blank (pages : List Text)
    (h : pages.all isBlank = false) :
    extract_text_from_pdf (some pages) =
      some (fix_hebrew_text_direction (stripText (pdfPagesText pages))) := by
  unfold extract_text_from_pdf
  have ht : ¬ stripText (pdfPagesText pages) = [] := by
    rw [stripText_eq_nil_iff, isBlank_pdfPagesText, h]
    simp
  simp only [ht, if_neg, ite_false]

theorem extract_text_from_pdf_of_blank (pages : List Text)
    (h : pages.all isBlank = true) :
    extract_text_from_pdf (some pages) = none := by
  unfold extract_text_from_pdf
  have ht : stripText (pdfPagesText pages) = [] := by
    rw [stripText_eq_nil_iff, isBlank_pdfPagesText]
    exact h
  simp only [ht, ite_true]

theorem extract_text_from_pdf_not_blank (parse : Option (List Text)) (t : Text)
    (h : extract_text_from_pdf parse = some t) : isBlank t = false := by
  cases parse with
  | none => exact absurd h (by simp [extract_text_from_pdf])
  | some pages =>
    unfold extract_text_from_pdf at h
    by_cases hs : stripText (pdfPagesText pages) = []
    · simp [hs] at h
    · simp only [hs, ite_false, Option.some.injEq] at h
      subst t
      rw [isBlank_fix_hebrew, isBlank_stripText, ← isBlank_stripText]
      cases hx : isBlank (stripText (pdfPagesText pages))
      · rfl
      · exact absurd ((stripText_eq_nil_iff _).mpr (by rwa [isBlank_stripText] at hx)) hs

theorem annText_not_blank (ann : Option Text) (t : Text)
    (h : annText ann = some t) : isBlank t = false := by
  cases ann with
  | none => exact absurd h (by simp [annText])
  | some t0 =>
    unfold annText at h
    by_cases hs : stripText t0 = []
    · simp [hs] at h
    · simp only [hs, ite_false, Option.some.injEq] at h
      subst t
      rw [isBlank_stripText]
      cases hx : isBlank t0
      · rfl
      · exact absurd ((stripText_eq_nil_iff _).mpr hx) hs

theorem firstDesc_not_blank (ts : List Text) (t : Text)
    (h : firstDesc ts = some t) : isBlank t = false := by
  cases ts with
  | nil => exact absurd h (by simp [firstDesc])
  | cons t0 rest =>
    unfold firstDesc at h
    by_cases hs : stripText t0 = []
    · simp [hs] at h
    · simp only [hs, ite_false, Option.some.injEq] at h
      subst t
      rw [isBlank_stripText]
      cases hx : isBlank t0
      · rfl
      · exact absurd ((stripText_eq_nil_iff _).mpr hx) hs

theorem isBlank_objectsSummary (objs : List Text) :
    isBlank (objectsSummary objs) = false := by
  unfold objectsSummary
  rw [isBlank_append]
  have h : isBlank "Objects detected: ".data = false := by decide
  rw [h, Bool.false_and]

theorem isBlank_labelsSummary (labels : List Text) :
    isBlank (labelsSummary labels) = false := by
  unfold labelsSummary
  rw [isBlank_append]
  have h : isBlank "Image contains: ".data = false := by decide
  rw [h, Bool.false_and]

theorem isBlank_exhaustedSentinel (name : Text) :
    isBlank (exhaustedSentinel name) = false := by
  unfold exhaustedSentinel
  rw [isBlank_append]
  have h : isBlank "No text or recognizable content found in ".data = false := by decide
  rw [h, Bool.false_and]

/-! ### Claim theorems -/

/-- C6 (amended).  `extract_text_from_pdf` maps a parse failure to `none`
(the `except` branch; the embedding is a total function, so "never raises
past its boundary" is the totality of the definition).  When every page's
text is blank the result is `none`; otherwise it is the newline-join of
the non-blank pages' text, stripped of leading/trailing whitespace and
passed through `fix_hebrew_text_direction`. -/
theorem extract_text_from_pdf_spec (pages : List Text) :
    extract_text_from_pdf none = none ∧
    extract_text_from_pdf (some pages) =
      (if pages.all isBlank then none
       else some (fix_hebrew_text_direction
         (stripText (intercalateNl (pages.filter (fun p => !isBlank p)))))) := by
  refine ⟨rfl, ?_⟩
  by_cases h : pages.all isBlank = true
  · rw [if_pos h]
    exact extract_text_from_pdf_of_blank pages h
  · have hb : pages.all isBlank = false := by
      cases hx : pages.all isBlank
      · rfl
      · exact absurd hx h
    rw [hb]
    simp only [Bool.false_eq_true, if_false]
    rw [extract_text_from_pdf_of_not_blank pages hb, stripText_pdfPagesText]

/-- C6 counterexample: the claim as stated — "returns the non-blank pages'
text concatenated with a newline separator" — fails on the single page
`" ךמס"` (a space followed by the matched reference word): the claim
predicts the page text itself, but the code strips the leading space and
then `fix_hebrew_text_direction` reverses the matched line. -/
theorem extract_text_from_pdf_not_plain_concat :
    extract_text_from_pdf
        (some [[' ', Char.ofNat 0x5DA, Char.ofNat 0x5DE, Char.ofNat 0x5E1]]) =
      some [Char.ofNat 0x5E1, Char.ofNat 0x5DE, Char.ofNat 0x5DA] ∧
    intercalateNl (List.filter (fun p => !isBlank p)
        [[' ', Char.ofNat 0x5DA, Char.ofNat 0x5DE, Char.ofNat 0x5E1]]) =
      [' ', Char.ofNat 0x5DA, Char.ofNat 0x5DE, Char.ofNat 0x5E1] ∧
    ([Char.ofNat 0x5E1, Char.ofNat 0x5DE, Char.ofNat 0x5DA] : Text) ≠
      [' ', Char.ofNat 0x5DA, Char.ofNat 0x5DE, Char.ofNat 0x5E1] := by
  decide

/-- C7: `fix_hebrew_text_direction` splits on `'\n'`, reverses exactly the
lines that contain a Hebrew-block code point and one of the fixed
reference substrings, passes every other line through unchanged, and
rejoins with `'\n'` — the no-op fast path for Hebrew-free text agrees with
this line-wise description. -/
theorem fix_hebrew_linewise (text : Text) :
    fix_hebrew_text_direction text =
      intercalateNl ((splitOnNl text).map
        (fun line =>
          if containsHebrew line && hebrewPatterns.any (fun pat => containsSub pat line)
          then line.reverse else line)) := by
  unfold fix_hebrew_text_direction
  by_cases h : containsHebrew text = true
  · rw [h]
    rfl
  · have hb : containsHebrew text = false := by
      cases hx : containsHebrew text
      · rfl
      · exact absurd hx h
    rw [hb]
    simp only [Bool.false_eq_true, if_false]
    have hl : ∀ l ∈ splitOnNl text, containsHebrew l = false := by
      intro l hm
      cases hx : containsHebrew l
      · rfl
      · have hany : (splitOnNl text).any containsHebrew = true :=
          List.any_eq_true.mpr ⟨l, hm, hx⟩
        rw [containsHebrew_splitOnNl] at hany
        exact absurd hany (by rw [hb]; simp)
    have hmap : (splitOnNl text).map
        (fun line =>
          if containsHebrew line && hebrewPatterns.any (fun pat => containsSub pat line)
          then line.reverse else line) = splitOnNl text := by
      apply map_eq_self_of_mem
      intro l hm
      rw [hl l hm, Bool.false_and]
      rfl
    rw [hmap, intercalateNl_splitOnNl]

/-- C8: on text without any Hebrew-block code point,
`fix_hebrew_text_direction` is the identity. -/
theorem fix_hebrew_id_of_no_hebrew (text : Text)
    (h : containsHebrew text = false) :
    fix_hebrew_text_direction text = text := by
  unfold fix_hebrew_text_direction
  rw [h]
  simp

/-- Witness for C8 at the Hebrew-free text `"hello\nworld"`. -/
theorem fix_hebrew_id_of_no_hebrew_witness :
    fix_hebrew_text_direction "hello\nworld".data = "hello\nworld".data :=
  fix_hebrew_id_of_no_hebrew "hello\nworld".data (by decide)

/-- C9: on a line with Hebrew characters matching a reference substring
the repair performed is full character-order reversal, and reversing the
repaired line again restores the original line (the reversal is an
involution on a matched line). -/
theorem matched_line_reversal_involution (line : Text)
    (h1 : containsHebrew line = true) (h2 : lineMatched line = true) :
    fixLine line = line.reverse ∧ (fixLine line).reverse = line := by
  unfold fixLine
  rw [h1, h2]
  exact ⟨rfl, List.reverse_reverse line⟩

/-- Witness for C9: the reference word `'ךמס'` embedded between two other
Hebrew letters. -/
theorem matched_line_reversal_involution_witness :
    fixLine [Char.ofNat 0x5D0, Char.ofNat 0x5DA, Char.ofNat 0x5DE,
        Char.ofNat 0x5E1, Char.ofNat 0x5D1] =
      List.reverse [Char.ofNat 0x5D0, Char.ofNat 0x5DA, Char.ofNat 0x5DE,
        Char.ofNat 0x5E1, Char.ofNat 0x5D1] ∧
    (fixLine [Char.ofNat 0x5D0, Char.ofNat 0x5DA, Char.ofNat 0x5DE,
        Char.ofNat 0x5E1, Char.ofNat 0x5D1]).reverse =
      [Char.ofNat 0x5D0, Char.ofNat 0x5DA, Char.ofNat 0x5DE,
        Char.ofNat 0x5E1, Char.ofNat 0x5D1] :=
  matched_line_reversal_involution _ (by decide) (by decide)

/-! ### Stage-by-stage evaluation lemmas for the vision cascade -/

theorem cascade_doc_error (p : VisionProvider) (name e : Text)
    (h : p.documentTextDetection = Except.error e) :
    visionCascade p name = errResult e := by
  unfold visionCascade
  rw [h]

theorem cascade_doc_ocr (p : VisionProvider) (name t : Text) (ann : Option Text)
    (h1 : p.documentTextDetection = Except.ok ann) (h2 : annText ann = some t) :
    visionCascade p name = ⟨some t, none, some Strategy.documentOCR⟩ := by
  unfold visionCascade
  rw [h1]
  simp only [h2]

theorem cascade_text_error (p : VisionProvider) (name e : Text) (ann : Option Text)
    (h1 : p.documentTextDetection = Except.ok ann) (h2 : annText ann = none)
    (h3 : p.textDetection = Except.error e) :
    visionCascade p name = errResult e := by
  unfold visionCascade
  rw [h1]
  simp only [h2, h3]

theorem cascade_generic_ocr (p : VisionProvider) (name t : Text) (ann : Option Text)
    (ts : List Text)
    (h1 : p.documentTextDetection = Except.ok ann) (h2 : annText ann = none)
    (h3 : p.textDetection = Except.ok ts) (h4 : firstDesc ts = some t) :
    visionCascade p name = ⟨some t, none, some Strategy.genericOCR⟩ := by
  unfold visionCascade
  rw [h1]
  simp only [h2, h3, h4]

theorem cascade_obj_error (p : VisionProvider) (name e : Text) (ann : Option Text)
    (ts : List Text)
    (h1 : p.documentTextDetection = Except.ok ann) (h2 : annText ann = none)
    (h3 : p.textDetection = Except.ok ts) (h4 : firstDesc ts = none)
    (h5 : p.objectLocalization = Except.error e) :
    visionCascade p name = errResult e := by
  unfold visionCascade
  rw [h1]
  simp only [h2, h3, h4, h5]

theorem cascade_objects (p : VisionProvider) (name : Text) (ann : Option Text)
    (ts : List Text) (o : Text) (os : List Text)
    (h1 : p.documentTextDetection = Except.ok ann) (h2 : annText ann = none)
    (h3 : p.textDetection = Except.ok ts) (h4 : firstDesc ts = none)
    (h5 : p.objectLocalization = Except.ok (o :: os)) :
    visionCascade p name =
      ⟨some (objectsSummary (o :: os)), none, some Strategy.objectDetection⟩ := by
  unfold visionCascade
  rw [h1]
  simp only [h2, h3, h4, h5]

theorem cascade_label_error (p : VisionProvider) (name e : Text) (ann : Option Text)
    (ts : List Text)
    (h1 : p.documentTextDetection = Except.ok ann) (h2 : annText ann = none)
    (h3 : p.textDetection = Except.ok ts) (h4 : firstDesc ts = none)
    (h5 : p.objectLocalization = Except.ok [])
    (h6 : p.labelDetection = Except.error e) :
    visionCascade p name = errResult e := by
  unfold visionCascade
  rw [h1]
  simp only [h2, h3, h4, h5, h6]

theorem cascade_labels (p : VisionProvider) (name : Text) (ann : Option Text)
    (ts : List Text) (l : Text) (ls : List Text)
    (h1 : p.documentTextDetection = Except.ok ann) (h2 : annText ann = none)
    (h3 : p.textDetection = Except.ok ts) (h4 : firstDesc ts = none)
    (h5 : p.objectLocalization = Except.ok [])
    (h6 : p.labelDetection = Except.ok (l :: ls)) :
    visionCascade p name =
      ⟨some (labelsSummary (l :: ls)), none, some Strategy.labelDetection⟩ := by
  unfold visionCascade
  rw [h1]
  simp only [h2, h3, h4, h5, h6]

theorem cascade_exhausted (p : VisionProvider) (name : Text) (ann : Option Text)
    (ts : List Text)
    (h1 : p.documentTextDetection = Except.ok ann) (h2 : annText ann = none)
    (h3 : p.textDetection = Except.ok ts) (h4 : firstDesc ts = none)
    (h5 : p.objectLocalization = Except.ok [])
    (h6 : p.labelDetection = Except.ok []) :
    visionCascade p name = ⟨some (exhaustedSentinel name), none, none⟩ := by
  unfold visionCascade
  rw [h1]
  simp only [h2, h3, h4, h5, h6]

theorem process_eq_cascade_of_not_pdf (parse : Option (List Text)) (p : VisionProvider)
    (name : Text) (h : endsWithPdf name = false) :
    process_with_vision_api parse p name = visionCascade p name := by
  unfold process_with_vision_api
  simp [h]

theorem process_eq_cascade_of_extract_none (parse : Option (List Text))
    (p : VisionProvider) (name : Text) (h : extract_text_from_pdf parse = none) :
    process_with_vision_api parse p name = visionCascade p name := by
  unfold process_with_vision_api
  by_cases hp : endsWithPdf name = true
  · simp [hp, h]
  · simp [hp]

theorem process_of_extract_some (parse : Option (List Text)) (p : VisionProvider)
    (name t : Text) (h1 : endsWithPdf name = true)
    (h2 : extract_text_from_pdf parse = some t) :
    process_with_vision_api parse p name = ⟨some t, none, some Strategy.nativeText⟩ := by
  unfold process_with_vision_api
  simp [h1, h2]

/-- C3: for a declared name ending in `.pdf` (after lowercasing) whose
native text layer is non-blank, the pipeline returns that text modified
only by `fix_hebrew_text_direction`, tagged `NativeText` — and the result
is the same for every `VisionProvider` (in particular for one whose every
call raises), so no visual-analysis strategy is invoked. -/
theorem nativeText_skips_vision (pages : List Text) (p p' : VisionProvider)
    (name : Text) (h1 : endsWithPdf name = true) (h2 : pages.all isBlank = false) :
    process_with_vision_api (some pages) p name =
      ⟨some (fix_hebrew_text_direction (stripText (pdfPagesText pages))), none,
        some Strategy.nativeText⟩ ∧
    process_with_vision_api (some pages) p name =
      process_with_vision_api (some pages) p' name := by
  have he := extract_text_from_pdf_of_not_blank pages h2
  refine ⟨process_of_extract_some _ p name _ h1 he, ?_⟩
  rw [process_of_extract_some _ p name _ h1 he, process_of_extract_some _ p' name _ h1 he]

/-- Witness for C3 (spec Scenario A): a PDF whose page text is
`"Invoice #100"`, against a provider whose every vision call raises. -/
theorem nativeText_skips_vision_witness :
    process_with_vision_api (some ["Invoice #100".data])
        ⟨Except.error "down".data, Except.error "down".data,
         Except.error "down".data, Except.error "down".data⟩ "Scan.PDF".data =
      ⟨some (fix_hebrew_text_direction (stripText (pdfPagesText ["Invoice #100".data]))),
        none, some Strategy.nativeText⟩ ∧
    process_with_vision_api (some ["Invoice #100".data])
        ⟨Except.error "down".data, Except.error "down".data,
         Except.error "down".data, Except.error "down".data⟩ "Scan.PDF".data =
      process_with_vision_api (some ["Invoice #100".data])
        ⟨Except.ok none, Except.ok [], Except.ok [], Except.ok []⟩ "Scan.PDF".data :=
  nativeText_skips_vision ["Invoice #100".data] _ _ "Scan.PDF".data
    (by decide) (by decide)

/-- C4: when every strategy yields blank/empty output (blank or failed
native layer, empty document OCR, empty generic OCR, zero objects, zero
labels) the pipeline returns exactly the sentinel
`"No text or recognizable content found in <name>"` with no error set. -/
theorem exhausted_sentinel_no_error (parse : Option (List Text)) (p : VisionProvider)
    (name : Text) (ann : Option Text) (ts : List Text)
    (h1 : endsWithPdf name = true → extract_text_from_pdf parse = none)
    (h2 : p.documentTextDetection = Except.ok ann) (h3 : annText ann = none)
    (h4 : p.textDetection = Except.ok ts) (h5 : firstDesc ts = none)
    (h6 : p.objectLocalization = Except.ok []) (h7 : p.labelDetection = Except.ok []) :
    process_with_vision_api parse p name =
      ⟨some (exhaustedSentinel name), none, none⟩ := by
  have hv := cascade_exhausted p name ann ts h2 h3 h4 h5 h6 h7
  by_cases hp : endsWithPdf name = true
  · rw [process_eq_cascade_of_extract_none parse p name (h1 hp), hv]
  · have hb : endsWithPdf name = false := by
      cases hx : endsWithPdf name
      · rfl
      · exact absurd hx hp
    rw [process_eq_cascade_of_not_pdf parse p name hb, hv]

/-- Witness for C4 (spec Scenario C): image bytes named `photo.jpg` where
all four vision strategies return empty. -/
theorem exhausted_sentinel_no_error_witness :
    process_with_vision_api none
        ⟨Except.ok none, Except.ok [], Except.ok [], Except.ok []⟩ "photo.jpg".data =
      ⟨some (exhaustedSentinel "photo.jpg".data), none, none⟩ :=
  exhausted_sentinel_no_error none _ "photo.jpg".data none []
    (fun _ => rfl) rfl rfl rfl rfl rfl rfl

theorem visionCascade_invariant (p : VisionProvider) (name : Text) :
    ((visionCascade p name).text.isSome && (visionCascade p name).error.isSome) = false ∧
    (visionCascade p name).text.all (fun t => !isBlank t) = true := by
  cases hd : p.documentTextDetection with
  | error e => rw [cascade_doc_error p name e hd]; exact ⟨rfl, rfl⟩
  | ok ann =>
    cases ha : annText ann with
    | some t =>
      rw [cascade_doc_ocr p name t ann hd ha]
      refine ⟨rfl, ?_⟩
      simp [Option.all, annText_not_blank ann t ha]
    | none =>
      cases htd : p.textDetection with
      | error e => rw [cascade_text_error p name e ann hd ha htd]; exact ⟨rfl, rfl⟩
      | ok ts =>
        cases hf : firstDesc ts with
        | some t =>
          rw [cascade_generic_ocr p name t ann ts hd ha htd hf]
          refine ⟨rfl, ?_⟩
          simp [Option.all, firstDesc_not_blank ts t hf]
        | none =>
          cases ho : p.objectLocalization with
          | error e => rw [cascade_obj_error p name e ann ts hd ha htd hf ho]; exact ⟨rfl, rfl⟩
          | ok objs =>
            cases objs with
            | cons o os =>
              rw [cascade_objects p name ann ts o os hd ha htd hf ho]
              refine ⟨rfl, ?_⟩
              simp [Option.all, isBlank_objectsSummary]
            | nil =>
              cases hl : p.labelDetection with
              | error e =>
                rw [cascade_label_error p name e ann ts hd ha htd hf ho hl]
                exact ⟨rfl, rfl⟩
              | ok labels =>
                cases labels with
                | cons l ls =>
                  rw [cascade_labels p name ann ts l ls hd ha htd hf ho hl]
                  refine ⟨rfl, ?_⟩
                  simp [Option.all, isBlank_labelsSummary]
                | nil =>
                  rw [cascade_exhausted p name ann ts hd ha htd hf ho hl]
                  refine ⟨rfl, ?_⟩
                  simp [Option.all, isBlank_exhaustedSentinel]

/-- C5: for every input and every combination of provider outcomes, the
result populates at most one of `text`/`error`, and a populated `text` is
never empty or whitespace-only. -/
theorem process_result_invariant (parse : Option (List Text)) (p : VisionProvider)
    (name : Text) :
    ((process_with_vision_api parse p name).text.isSome &&
      (process_with_vision_api parse p name).error.isSome) = false ∧
    (process_with_vision_api parse p name).text.all (fun t => !isBlank t) = true := by
  by_cases hp : endsWithPdf name = true
  · cases he : extract_text_from_pdf parse with
    | none =>
      rw [process_eq_cascade_of_extract_none parse p name he]
      exact visionCascade_invariant p name
    | some t =>
      rw [process_of_extract_some parse p name t hp he]
      refine ⟨rfl, ?_⟩
      simp [Option.all, extract_text_from_pdf_not_blank parse t he]
  · have hb : endsWithPdf name = false := by
      cases hx : endsWithPdf name
      · rfl
      · exact absurd hx hp
    rw [process_eq_cascade_of_not_pdf parse p name hb]
    exact visionCascade_invariant p name

/-- C10: the document-vs-image decision is made only from the declared
name.  When the lowered name does not end in `.pdf` the pipeline goes
straight to the vision cascade and the result is independent of the PDF
parse outcome (the bytes' PDF-ness is never inspected); when it does end
in `.pdf`, a parser failure (`parse = none`, e.g. non-PDF bytes under a
`.pdf` name) is absorbed and falls through to the vision cascade, while a
non-blank parsed text layer is used as the NativeText result. -/
theorem pdf_gate_from_name_only (p : VisionProvider) (parse parse' : Option (List Text))
    (name : Text) (pages : List Text) :
    (endsWithPdf name = false →
      process_with_vision_api parse p name = visionCascade p name) ∧
    (endsWithPdf name = false →
      process_with_vision_api parse p name = process_with_vision_api parse' p name) ∧
    (endsWithPdf name = true →
      process_with_vision_api none p name = visionCascade p name) ∧
    (endsWithPdf name = true → pages.all isBlank = false →
      process_with_vision_api (some pages) p name =
        ⟨some (fix_hebrew_text_direction (stripText (pdfPagesText pages))), none,
          some Strategy.nativeText⟩) := by
  refine ⟨fun h => process_eq_cascade_of_not_pdf parse p name h, ?_, ?_, ?_⟩
  · intro h
    rw [process_eq_cascade_of_not_pdf parse p name h,
      process_eq_cascade_of_not_pdf parse' p name h]
  · intro h
    exact process_eq_cascade_of_extract_none none p name rfl
  · intro h hb
    exact process_of_extract_some _ p name _ h (extract_text_from_pdf_of_not_blank pages hb)

/-- Witness for C10: PDF bytes under the image name `photo.jpg` go
straight to the cascade independently of the parse outcome; a parse
failure under the name `scan.PDF` falls through to the cascade; a
non-blank page under `scan.PDF` is returned as NativeText. -/
theorem pdf_gate_from_name_only_witness :
    (process_with_vision_api (some [['x']])
        ⟨Except.ok none, Except.ok [], Except.ok [], Except.ok []⟩ "photo.jpg".data =
      visionCascade ⟨Except.ok none, Except.ok [], Except.ok [], Except.ok []⟩
        "photo.jpg".data) ∧
    (process_with_vision_api (some [['x']])
        ⟨Except.ok none, Except.ok [], Except.ok [], Except.ok []⟩ "photo.jpg".data =
      process_with_vision_api none
        ⟨Except.ok none, Except.ok [], Except.ok [], Except.ok []⟩ "photo.jpg".data) ∧
    (process_with_vision_api none
        ⟨Except.ok none, Except.ok [], Except.ok [], Except.ok []⟩ "scan.PDF".data =
      visionCascade ⟨Except.ok none, Except.ok [], Except.ok [], Except.ok []⟩
        "scan.PDF".data) ∧
    (process_with_vision_api (some [['I']])
        ⟨Except.ok none, Except.ok [], Except.ok [], Except.ok []⟩ "scan.PDF".data =
      ⟨some (fix_hebrew_text_direction (stripText (pdfPagesText [['I']]))), none,
        some Strategy.nativeText⟩) :=
  ⟨(pdf_gate_from_name_only _ (some [['x']]) none "photo.jpg".data [['I']]).1 (by decide),
   (pdf_gate_from_name_only _ (some [['x']]) none "photo.jpg".data [['I']]).2.1 (by decide),
   (pdf_gate_from_name_only _ none none "scan.PDF".data [['I']]).2.2.1 (by decide),
   (pdf_gate_from_name_only _ (some [['I']]) none "scan.PDF".data [['I']]).2.2.2
     (by decide) (by decide)⟩

/-- C1 counterexample: with a non-PDF name and a document-OCR response
consisting of the reversed reference word `'ךמס'`, the pipeline returns
the OCR text as-is, although `fix_hebrew_text_direction` of that text is
different (it would reverse the line) — so the repair is not applied to
the DocumentOCR strategy's text, contradicting the claim. -/
theorem documentOCR_text_not_repaired :
    process_with_vision_api none
        ⟨Except.ok (some [Char.ofNat 0x5DA, Char.ofNat 0x5DE, Char.ofNat 0x5E1]),
         Except.ok [], Except.ok [], Except.ok []⟩ "scan.jpg".data =
      ⟨some [Char.ofNat 0x5DA, Char.ofNat 0x5DE, Char.ofNat 0x5E1], none,
        some Strategy.documentOCR⟩ ∧
    fix_hebrew_text_direction [Char.ofNat 0x5DA, Char.ofNat 0x5DE, Char.ofNat 0x5E1] =
      [Char.ofNat 0x5E1, Char.ofNat 0x5DE, Char.ofNat 0x5DA] ∧
    ([Char.ofNat 0x5DA, Char.ofNat 0x5DE, Char.ofNat 0x5E1] : Text) ≠
      [Char.ofNat 0x5E1, Char.ofNat 0x5DE, Char.ofNat 0x5DA] := by
  decide

/-- C1 (amended): `fix_hebrew_text_direction` is applied only on the
NativeText path (inside `extract_text_from_pdf`); the DocumentOCR and
GenericOCR texts are returned stripped but unrepaired, and the
ObjectDetection/LabelDetection summaries are returned as synthesized. -/
theorem repair_only_on_native_text (parse : Option (List Text)) (p : VisionProvider)
    (name : Text) (pages : List Text) (t : Text) (ann : Option Text)
    (ts : List Text) (o : Text) (os : List Text) (l : Text) (ls : List Text) :
    (endsWithPdf name = true → pages.all isBlank = false →
      process_with_vision_api (some pages) p name =
        ⟨some (fix_hebrew_text_direction (stripText (pdfPagesText pages))), none,
          some Strategy.nativeText⟩) ∧
    (endsWithPdf name = false → p.documentTextDetection = Except.ok (some t) →
      ¬ stripText t = [] →
      process_with_vision_api parse p name =
        ⟨some (stripText t), none, some Strategy.documentOCR⟩) ∧
    (endsWithPdf name = false → p.documentTextDetection = Except.ok ann →
      annText ann = none → p.textDetection = Except.ok (t :: ts) →
      ¬ stripText t = [] →
      process_with_vision_api parse p name =
        ⟨some (stripText t), none, some Strategy.genericOCR⟩) ∧
    (endsWithPdf name = false → p.documentTextDetection = Except.ok ann →
      annText ann = none → p.textDetection = Except.ok ts → firstDesc ts = none →
      p.objectLocalization = Except.ok (o :: os) →
      process_with_vision_api parse p name =
        ⟨some (objectsSummary (o :: os)), none, some Strategy.objectDetection⟩) ∧
    (endsWithPdf name = false → p.documentTextDetection = Except.ok ann →
      annText ann = none → p.textDetection = Except.ok ts → firstDesc ts = none →
      p.objectLocalization = Except.ok [] → p.labelDetection = Except.ok (l :: ls) →
      process_with_vision_api parse p name =
        ⟨some (labelsSummary (l :: ls)), none, some Strategy.labelDetection⟩) := by
  refine ⟨?_, ?_, ?_, ?_, ?_⟩
  · intro h hb
    exact process_of_extract_some _ p name _ h (extract_text_from_pdf_of_not_blank pages hb)
  · intro h h1 hs
    rw [process_eq_cascade_of_not_pdf parse p name h]
    exact cascade_doc_ocr p name (stripText t) (some t) h1 (by simp [annText, hs])
  · intro h h1 h2 h3 hs
    rw [process_eq_cascade_of_not_pdf parse p name h]
    exact cascade_generic_ocr p name (stripText t) ann (t :: ts) h1 h2 h3
      (by simp [firstDesc, hs])
  · intro h h1 h2 h3 h4 h5
    rw [process_eq_cascade_of_not_pdf parse p name h]
    exact cascade_objects p name ann ts o os h1 h2 h3 h4 h5
  · intro h h1 h2 h3 h4 h5 h6
    rw [process_eq_cascade_of_not_pdf parse p name h]
    exact cascade_labels p name ann ts l ls h1 h2 h3 h4 h5 h6

/-- Witness for C1 (amended), one concrete input per strategy. -/
theorem repair_only_on_native_text_witness :
    (process_with_vision_api (some ["Invoice #100".data])
        ⟨Except.ok none, Except.ok [], Except.ok [], Except.ok []⟩ "a.pdf".data =
      ⟨some (fix_hebrew_text_direction (stripText (pdfPagesText ["Invoice #100".data]))),
        none, some Strategy.nativeText⟩) ∧
    (process_with_vision_api none
        ⟨Except.ok (some "hi".data), Except.ok [], Except.ok [], Except.ok []⟩
        "a.jpg".data =
      ⟨some (stripText "hi".data), none, some Strategy.documentOCR⟩) ∧
    (process_with_vision_api none
        ⟨Except.ok none, Except.ok ["hi".data], Except.ok [], Except.ok []⟩
        "a.jpg".data =
      ⟨some (stripText "hi".data), none, some Strategy.genericOCR⟩) ∧
    (process_with_vision_api none
        ⟨Except.ok none, Except.ok [], Except.ok ["cat".data], Except.ok []⟩
        "a.jpg".data =
      ⟨some (objectsSummary ["cat".data]), none, some Strategy.objectDetection⟩) ∧
    (process_with_vision_api none
        ⟨Except.ok none, Except.ok [], Except.ok [], Except.ok ["dog".data]⟩
        "a.jpg".data =
      ⟨some (labelsSummary ["dog".data]), none, some Strategy.labelDetection⟩) :=
  ⟨(repair_only_on_native_text (some ["Invoice #100".data]) _ "a.pdf".data
      ["Invoice #100".data] [] none [] [] [] [] []).1 (by decide) (by decide),
   (repair_only_on_native_text none _ "a.jpg".data [] "hi".data none
      [] [] [] [] []).2.1 (by decide) rfl (by decide),
   (repair_only_on_native_text none _ "a.jpg".data [] "hi".data none
      [] [] [] [] []).2.2.1 (by decide) rfl rfl rfl (by decide),
   (repair_only_on_native_text none _ "a.jpg".data [] [] none
      [] "cat".data [] [] []).2.2.2.1 (by decide) rfl rfl rfl rfl rfl,
   (repair_only_on_native_text none _ "a.jpg".data [] [] none
      [] [] [] "dog".data []).2.2.2.2 (by decide) rfl rfl rfl rfl rfl rfl⟩

/-- C2 counterexample: an image input whose document-text-detection call
raises while the next strategy (generic OCR) has non-blank text `"hello"`.
The claim predicts the cascade continues and returns that text; the code
surfaces the failure of the non-final strategy as an error and produces no
text, because the whole vision sequence sits in one `try/except`. -/
theorem nonfinal_failure_not_absorbed :
    process_with_vision_api none
        ⟨Except.error "boom".data, Except.ok ["hello".data], Except.ok [], Except.ok []⟩
        "scan.jpg".data =
      ⟨none, some "Vision API error: boom".data, none⟩ ∧
    firstDesc ["hello".data] = some "hello".data := by
  decide

/-- C2 (amended): only PDF-parse failures are absorbed and fall through to
the vision strategies; a transport/service failure raised by ANY vision
strategy invocation — final or not — aborts the cascade and is surfaced to
the caller as a `"Vision API error: ..."` error (the final LabelDetection
case of the original claim is the fourth conjunct). -/
theorem vision_failure_always_surfaced (parse : Option (List Text)) (p : VisionProvider)
    (name e : Text) (ann : Option Text) (ts : List Text)
    (hname : endsWithPdf name = false) :
    (p.documentTextDetection = Except.error e →
      process_with_vision_api parse p name = errResult e) ∧
    (p.documentTextDetection = Except.ok ann → annText ann = none →
      p.textDetection = Except.error e →
      process_with_vision_api parse p name = errResult e) ∧
    (p.documentTextDetection = Except.ok ann → annText ann = none →
      p.textDetection = Except.ok ts → firstDesc ts = none →
      p.objectLocalization = Except.error e →
      process_with_vision_api parse p name = errResult e) ∧
    (p.documentTextDetection = Except.ok ann → annText ann = none →
      p.textDetection = Except.ok ts → firstDesc ts = none →
      p.objectLocalization = Except.ok [] → p.labelDetection = Except.error e →
      process_with_vision_api parse p name = errResult e) := by
  have hc := process_eq_cascade_of_not_pdf parse p name hname
  refine ⟨?_, ?_, ?_, ?_⟩
  · intro h1
    rw [hc]
    exact cascade_doc_error p name e h1
  · intro h1 h2 h3
    rw [hc]
    exact cascade_text_error p name e ann h1 h2 h3
  · intro h1 h2 h3 h4 h5
    rw [hc]
    exact cascade_obj_error p name e ann ts h1 h2 h3 h4 h5
  · intro h1 h2 h3 h4 h5 h6
    rw [hc]
    exact cascade_label_error p name e ann ts h1 h2 h3 h4 h5 h6

/-- Witness for C2 (amended): a failing call at each of the four vision
stages, on the image name `img.png`, each surfaced as the error result. -/
theorem vision_failure_always_surfaced_witness :
    (process_with_vision_api none
        ⟨Except.error "boom".data, Except.ok [], Except.ok [], Except.ok []⟩
        "img.png".data = errResult "boom".data) ∧
    (process_with_vision_api none
        ⟨Except.ok none, Except.error "boom".data, Except.ok [], Except.ok []⟩
        "img.png".data = errResult "boom".data) ∧
    (process_with_vision_api none
        ⟨Except.ok none, Except.ok [], Except.error "boom".data, Except.ok []⟩
        "img.png".data = errResult "boom".data) ∧
    (process_with_vision_api none
        ⟨Except.ok none, Except.ok [], Except.ok [], Except.error "boom".data⟩
        "img.png".data = errResult "boom".data) :=
  ⟨(vision_failure_always_surfaced none _ "img.png".data "boom".data none []
      (by decide)).1 rfl,
   (vision_failure_always_surfaced none _ "img.png".data "boom".data none []
      (by decide)).2.1 rfl rfl rfl,
   (vision_failure_always_surfaced none _ "img.png".data "boom".data none []
      (by decide)).2.2.1 rfl rfl rfl rfl rfl,
   (vision_failure_always_surfaced none _ "img.png".data "boom".data none []
      (by decide)).2.2.2 rfl rfl rfl rfl rfl rfl⟩

end DriveAirtable
